import Mathlib

/-!
Shallow embedding of the course-catalog application in
CS203_Lab_01-main/app.py: the record store (load_courses, save_courses,
delete_course_by_code), the validator (validate_course) and the add_course
handler.  Tracing spans, logging and timing are omitted: they do not affect
the return values or the catalog file state that the properties below are
about.  Python dictionaries are modelled as association lists of string keys
to Python values; the catalog file is modelled as an optional JSON document
(absent, empty, or a serialized array of course objects); Python exceptions
are modelled with Except.
-/

namespace CourseApp

/-- Model of the Python values that can appear as a field value of a
submitted or stored record: a string, or any non-string value (such as
Python None or a number).  All non-strings behave alike at the points the
program touches them: calling .strip() on one raises AttributeError, and
comparing one to a str with == yields False. -/
inductive PyVal where
  | str (s : String)
  | nonStr
deriving DecidableEq

/-- The Python exceptions the modelled code can raise. -/
inductive PyError where
  | attributeError
  | keyError
  | jsonDecodeError
deriving DecidableEq

/-- A Python dict with string keys, as the program uses for course records. -/
abbrev Dict := List (String × PyVal)

abbrev Course := Dict

/-- Model of Python dict.get(k, dflt): the value at the key, or the default
when the key is absent. -/
def dictGet (d : Dict) (k : String) (dflt : PyVal) : PyVal :=
  (d.lookup k).getD dflt

/-- Model of Python d[k]: the value at the key, raising KeyError when the
key is absent. -/
def dictGetItem (d : Dict) (k : String) : Except PyError PyVal :=
  match d.lookup k with
  | some v => .ok v
  | none => .error .keyError

/-- The characters Python str.strip() removes by default, as given by
string.whitespace: space, tab, linefeed, carriage return, vertical tab and
form feed.  (Python also strips a few Unicode space characters; no property
below depends on the exact whitespace set.) -/
def pyWhitespace (c : Char) : Bool :=
  c == ' ' || c == '\t' || c == '\n' || c == '\r' || c == '\x0b' || c == '\x0c'

/-- Model of Python s.strip() on a string: remove leading and trailing
whitespace characters. -/
def pyStripStr (s : String) : String :=
  ⟨((s.data.dropWhile pyWhitespace).reverse.dropWhile pyWhitespace).reverse⟩

/-- Model of Python v.strip() on a field value: strips a string, raises
AttributeError on a non-string. -/
def pyStrip : PyVal → Except PyError String
  | .str s => .ok (pyStripStr s)
  | .nonStr => .error .attributeError

/-- Whether a field value counts as empty for the validation scans: a
string that is empty or whitespace-only after stripping (Python truthiness
of the stripped string).  A non-string is never classified this way because
the scans raise before classifying it. -/
def isBlankVal : PyVal → Bool
  | .str s => (pyStripStr s).data.isEmpty
  | .nonStr => false

/-- Whether a field value is a string. -/
def isStrVal : PyVal → Bool
  | .str _ => true
  | .nonStr => false

/-- Model of the Python comparison v == s where s is a str: equal strings
compare equal; a non-string compares unequal to a str without raising. -/
def pyEqStr (v : PyVal) (s : String) : Bool :=
  match v with
  | .str t => t == s
  | .nonStr => false

/-- The value validate_course returns: (False, msg) on error, the truthy
("warning", msg) on warning, (True, msg) on success. -/
inductive Outcome where
  | error (msg : String)
  | warning (msg : String)
  | success (msg : String)
deriving DecidableEq

/-- Python truthiness of the first component of the validate_course result:
False is falsy; the non-empty string "warning" and True are truthy. -/
def Outcome.truthy : Outcome → Bool
  | .error _ => false
  | .warning _ => true
  | .success _ => true

/-- app.py line 144: required_fields = a list of code, name, instructor. -/
def required_fields : List String := ["code", "name", "instructor"]

/-- The list-comprehension scan shared by app.py lines 147 and 170:
collect, in order, the fields of the given list whose value in data (with
the given dict.get default) strips to the empty string; evaluating strip
on a non-string value raises AttributeError at that point. -/
def blankFields (data : Dict) (dflt : PyVal) : List String → Except PyError (List String)
  | [] => .ok []
  | f :: rest => do
    let s ← pyStrip (dictGet data f dflt)
    let tail ← blankFields data dflt rest
    .ok (if s.data.isEmpty then f :: tail else tail)

/-- app.py lines 130-205, validate_course(data): scan the required fields
(dict.get default "") and return the error outcome when any is blank;
otherwise scan every field present in data and return the warning outcome
when any is blank; otherwise return the success outcome. -/
def validate_course (data : Dict) : Except PyError Outcome := do
  let empty_fields ← blankFields data (.str "") required_fields
  if empty_fields.isEmpty then do
    let warning_fields ← blankFields data (.str "") (data.map Prod.fst)
    if warning_fields.isEmpty then
      .ok (.success "Validation successful")
    else
      .ok (.warning ("Warning: Fields " ++ String.intercalate ", " warning_fields ++ " are empty"))
  else
    .ok (.error ("Error: Missing required fields - " ++ String.intercalate ", " empty_fields))

/-- The contents of the catalog file at the granularity the program
exercises: save_courses only ever writes a JSON array of course objects
(arrayDoc); a file that exists but is zero bytes long (emptyDoc) is not
well-formed JSON. -/
inductive JsonDoc where
  | emptyDoc
  | arrayDoc (courses : List Course)
deriving DecidableEq

/-- Model of Python json.load on a catalog document: a serialized array
deserializes to its list of course records; an empty document is not valid
JSON, so json.load raises json.JSONDecodeError (Expecting value: line 1
column 1). -/
def jsonLoadDoc : JsonDoc → Except PyError (List Course)
  | .emptyDoc => .error .jsonDecodeError
  | .arrayDoc courses => .ok courses

/-- The state of the catalog file: absent, or present with a document. -/
abbrev FileState := Option JsonDoc

/-- app.py lines 53-91, load_courses(): return [] when the course file does
not exist, otherwise json.load its contents. -/
def load_courses (fs : FileState) : Except PyError (List Course) :=
  match fs with
  | none => .ok []
  | some doc => jsonLoadDoc doc

/-- app.py lines 93-127, save_courses(data): load the existing courses,
append data, and rewrite the whole file with the updated list. -/
def save_courses (data : Course) (fs : FileState) : Except PyError FileState := do
  let courses ← load_courses fs
  .ok (some (.arrayDoc (courses ++ [data])))

/-- app.py line 224: next((c for c in courses if c["code"] == code), None).
Scans the list in order, raising KeyError at the first record without a
"code" key reached before a match, and stopping at the first match. -/
def findMatch (code : String) : List Course → Except PyError (Option Course)
  | [] => .ok none
  | c :: rest => do
    let v ← dictGetItem c "code"
    if pyEqStr v code then .ok (some c) else findMatch code rest

/-- app.py line 228: [c for c in courses if c["code"] != code].  Evaluates
c["code"] for every record, so it raises KeyError when any record lacks the
"code" key. -/
def filterNotCode (code : String) : List Course → Except PyError (List Course)
  | [] => .ok []
  | c :: rest => do
    let v ← dictGetItem c "code"
    let tail ← filterNotCode code rest
    .ok (if pyEqStr v code then tail else c :: tail)

/-- app.py lines 207-261, delete_course_by_code(code): load the catalog;
find the first record whose "code" equals the argument; when found, rewrite
the file with every record of that code filtered out and return True;
otherwise return False and leave the file untouched. -/
def delete_course_by_code (code : String) (fs : FileState) : Except PyError (Bool × FileState) := do
  let courses ← load_courses fs
  let found ← findMatch code courses
  match found with
  | some _ => do
    let remaining ← filterNotCode code courses
    .ok (true, some (.arrayDoc remaining))
  | none => .ok (false, fs)

/-- The nine form fields the add_course handler reads from request.form;
Flask form values are always strings. -/
structure Form where
  code : String
  name : String
  instructor : String
  semester : String
  schedule : String
  classroom : String
  prerequisites : String
  grading : String
  description : String

/-- app.py lines 332-342: the course dict built from the form data, with
the nine fields in this fixed order. -/
def buildCourse (f : Form) : Course :=
  [("code", .str f.code), ("name", .str f.name), ("instructor", .str f.instructor),
   ("semester", .str f.semester), ("schedule", .str f.schedule),
   ("classroom", .str f.classroom), ("prerequisites", .str f.prerequisites),
   ("grading", .str f.grading), ("description", .str f.description)]

/-- The observable result of a POST to add_course: which flash/render path
the handler took.  Session counters and the flashed text are presentation
bookkeeping and are abstracted away. -/
inductive AddResult where
  | missingFieldsError
  | validationError
  | saveError
  | redirectSuccess
deriving DecidableEq

/-- app.py lines 302-427, the POST branch of add_course: build the course
from the form; re-render with an error flash when a required field is blank
(lines 344-355, course.get(field) has no default, so an absent key would
yield None); otherwise call validate_course and re-render when the result
is falsy (line 364); otherwise try save_courses, catching any exception
(lines 382-401); on success redirect to the catalog. -/
def add_course (f : Form) (fs : FileState) : Except PyError (AddResult × FileState) := do
  let course := buildCourse f
  let empty_fields ← blankFields course .nonStr required_fields
  if empty_fields.isEmpty then do
    let o ← validate_course course
    if o.truthy then
      match save_courses course fs with
      | .ok fs1 => .ok (.redirectSuccess, fs1)
      | .error _ => .ok (.saveError, fs)
    else
      .ok (.validationError, fs)
  else
    .ok (.missingFieldsError, fs)

/-! ### Dictionary lemmas -/

theorem lookup_isSome_of_mem_keys {d : Dict} {k : String} (h : k ∈ d.map Prod.fst) :
    (d.lookup k).isSome = true := by
  rw [List.lookup_isSome_iff]
  rcases List.mem_map.mp h with ⟨p, hp, rfl⟩
  exact ⟨p, hp, by simp⟩

theorem mem_keys_of_lookup_eq_some {d : Dict} {k : String} {v : PyVal}
    (h : d.lookup k = some v) : k ∈ d.map Prod.fst := by
  by_contra hk
  have : d.lookup k = none := by
    rw [List.lookup_eq_none_iff]
    intro p hp
    simp only [bne_iff_ne, ne_eq]
    intro hkp
    exact hk (List.mem_map.mpr ⟨p, hp, hkp.symm⟩)
  simp [this] at h

theorem dictGet_of_not_mem_keys {d : Dict} {k : String} {dflt : PyVal}
    (h : k ∉ d.map Prod.fst) : dictGet d k dflt = dflt := by
  unfold dictGet
  have : d.lookup k = none := by
    rw [List.lookup_eq_none_iff]
    intro p hp
    simp only [bne_iff_ne, ne_eq]
    intro hkp
    exact h (List.mem_map.mpr ⟨p, hp, hkp.symm⟩)
  simp [this]

theorem dictGet_of_lookup_eq_some {d : Dict} {k : String} {v dflt : PyVal}
    (h : d.lookup k = some v) : dictGet d k dflt = v := by
  simp [dictGet, h]

/-! ### Scan lemmas for blankFields -/

theorem blankFields_eq_filter (data : Dict) (dflt : PyVal) (fields : List String)
    (h : ∀ f ∈ fields, isStrVal (dictGet data f dflt) = true) :
    blankFields data dflt fields =
      .ok (fields.filter (fun f => isBlankVal (dictGet data f dflt))) := by
  induction fields with
  | nil => rfl
  | cons f rest ih =>
    have hf := h f (List.mem_cons_self f rest)
    have hrest := ih (fun g hg => h g (List.mem_cons_of_mem f hg))
    cases hv : dictGet data f dflt with
    | str s =>
      simp only [blankFields, hv, pyStrip, Bind.bind, Except.bind, hrest, List.filter_cons,
        isBlankVal]
    | nonStr => rw [hv] at hf; simp [isStrVal] at hf

theorem blankFields_error (data : Dict) (dflt : PyVal) (fields : List String)
    (h : ∃ f ∈ fields, dictGet data f dflt = .nonStr) :
    blankFields data dflt fields = .error .attributeError := by
  induction fields with
  | nil => simp at h
  | cons f rest ih =>
    cases hv : dictGet data f dflt with
    | nonStr => simp [blankFields, hv, pyStrip, Bind.bind, Except.bind]
    | str s =>
      rcases h with ⟨g, hg, hgv⟩
      rcases List.mem_cons.mp hg with rfl | hg2
      · rw [hv] at hgv; exact absurd hgv (by simp)
      · simp [blankFields, hv, pyStrip, Bind.bind, Except.bind, ih ⟨g, hg2, hgv⟩]

/-! ### Validator lemmas -/

theorem str_dictGet_of_all_str {data : Dict}
    (hstr : ∀ k ∈ data.map Prod.fst, isStrVal (dictGet data k (.str "")) = true)
    (f : String) : isStrVal (dictGet data f (.str "")) = true := by
  by_cases hk : f ∈ data.map Prod.fst
  · exact hstr f hk
  · rw [dictGet_of_not_mem_keys hk]; rfl

theorem validate_course_error_eq (data : Dict)
    (hreq : ∀ f ∈ required_fields, isStrVal (dictGet data f (.str "")) = true)
    (hne : required_fields.filter (fun f => isBlankVal (dictGet data f (.str ""))) ≠ []) :
    validate_course data =
      .ok (.error ("Error: Missing required fields - " ++ String.intercalate ", "
        (required_fields.filter (fun f => isBlankVal (dictGet data f (.str "")))))) := by
  simp only [validate_course, blankFields_eq_filter data (.str "") required_fields hreq,
    Bind.bind, Except.bind]
  simp [List.isEmpty_iff, hne]

theorem validate_course_success_eq (data : Dict)
    (hstr : ∀ k ∈ data.map Prod.fst, isStrVal (dictGet data k (.str "")) = true)
    (hreq : required_fields.filter (fun f => isBlankVal (dictGet data f (.str ""))) = [])
    (hw : (data.map Prod.fst).filter (fun k => isBlankVal (dictGet data k (.str ""))) = []) :
    validate_course data = .ok (.success "Validation successful") := by
  simp only [validate_course,
    blankFields_eq_filter data (.str "") required_fields
      (fun f _ => str_dictGet_of_all_str hstr f),
    blankFields_eq_filter data (.str "") (data.map Prod.fst) (fun k hk => hstr k hk),
    hreq, hw, Bind.bind, Except.bind]
  rfl

theorem validate_course_warning_eq (data : Dict)
    (hstr : ∀ k ∈ data.map Prod.fst, isStrVal (dictGet data k (.str "")) = true)
    (hreq : required_fields.filter (fun f => isBlankVal (dictGet data f (.str ""))) = [])
    (hw : (data.map Prod.fst).filter (fun k => isBlankVal (dictGet data k (.str ""))) ≠ []) :
    validate_course data =
      .ok (.warning ("Warning: Fields " ++ String.intercalate ", "
        ((data.map Prod.fst).filter (fun k => isBlankVal (dictGet data k (.str "")))) ++
        " are empty")) := by
  simp only [validate_course,
    blankFields_eq_filter data (.str "") required_fields
      (fun f _ => str_dictGet_of_all_str hstr f),
    blankFields_eq_filter data (.str "") (data.map Prod.fst) (fun k hk => hstr k hk),
    hreq, Bind.bind, Except.bind]
  simp [List.isEmpty_iff, hw]

/-! ### Record-store lemmas -/

theorem pyEqStr_false_of_ne {v : PyVal} {code : String} (h : v ≠ PyVal.str code) :
    pyEqStr v code = false := by
  cases v with
  | str t =>
    simp only [pyEqStr, beq_eq_false_iff_ne, ne_eq]
    intro ht
    exact h (by rw [ht])
  | nonStr => rfl

theorem findMatch_ok_none {code : String} {l : List Course}
    (h : ∀ c ∈ l, ∃ v, c.lookup "code" = some v ∧ pyEqStr v code = false) :
    findMatch code l = .ok none := by
  induction l with
  | nil => rfl
  | cons c rest ih =>
    obtain ⟨v, hv, hpv⟩ := h c (List.mem_cons_self c rest)
    simp [findMatch, dictGetItem, hv, hpv, Bind.bind, Except.bind,
      ih (fun d hd => h d (List.mem_cons_of_mem c hd))]

theorem findMatch_ok_some {code : String} {l : List Course}
    (hkeys : ∀ c ∈ l, (c.lookup "code").isSome = true)
    (h : ∃ c ∈ l, ∃ v, c.lookup "code" = some v ∧ pyEqStr v code = true) :
    ∃ c, findMatch code l = .ok (some c) := by
  induction l with
  | nil => simp at h
  | cons c rest ih =>
    obtain ⟨v, hv⟩ := Option.isSome_iff_exists.mp (hkeys c (List.mem_cons_self c rest))
    by_cases hm : pyEqStr v code = true
    · exact ⟨c, by simp [findMatch, dictGetItem, hv, hm, Bind.bind, Except.bind]⟩
    · have hrest : ∃ d ∈ rest, ∃ w, d.lookup "code" = some w ∧ pyEqStr w code = true := by
        rcases h with ⟨d, hd, w, hw, hpw⟩
        rcases List.mem_cons.mp hd with rfl | hd2
        · rw [hw] at hv; cases hv; exact absurd hpw hm
        · exact ⟨d, hd2, w, hw, hpw⟩
      obtain ⟨d, hd⟩ := ih (fun e he => hkeys e (List.mem_cons_of_mem c he)) hrest
      exact ⟨d, by simp [findMatch, dictGetItem, hv, hm, Bind.bind, Except.bind, hd]⟩

theorem findMatch_error_or_some (code : String) {l : List Course}
    (h : ∃ c ∈ l, c.lookup "code" = none) :
    findMatch code l = .error .keyError ∨ ∃ c, findMatch code l = .ok (some c) := by
  induction l with
  | nil => simp at h
  | cons c rest ih =>
    cases hv : c.lookup "code" with
    | none => exact Or.inl (by simp [findMatch, dictGetItem, hv, Bind.bind, Except.bind])
    | some v =>
      by_cases hm : pyEqStr v code = true
      · exact Or.inr ⟨c, by simp [findMatch, dictGetItem, hv, hm, Bind.bind, Except.bind]⟩
      · have hrest : ∃ d ∈ rest, d.lookup "code" = none := by
          rcases h with ⟨d, hd, hdn⟩
          rcases List.mem_cons.mp hd with rfl | hd2
          · rw [hv] at hdn; cases hdn
          · exact ⟨d, hd2, hdn⟩
        rcases ih hrest with he | ⟨d, hd⟩
        · exact Or.inl (by simp [findMatch, dictGetItem, hv, hm, Bind.bind, Except.bind, he])
        · exact Or.inr ⟨d, by simp [findMatch, dictGetItem, hv, hm, Bind.bind, Except.bind, hd]⟩

theorem findMatch_exists_ok (code : String) {l : List Course}
    (hkeys : ∀ c ∈ l, (c.lookup "code").isSome = true) :
    ∃ o, findMatch code l = .ok o := by
  induction l with
  | nil => exact ⟨none, rfl⟩
  | cons c rest ih =>
    obtain ⟨v, hv⟩ := Option.isSome_iff_exists.mp (hkeys c (List.mem_cons_self c rest))
    by_cases hm : pyEqStr v code = true
    · exact ⟨some c, by simp [findMatch, dictGetItem, hv, hm, Bind.bind, Except.bind]⟩
    · obtain ⟨o, ho⟩ := ih (fun e he => hkeys e (List.mem_cons_of_mem c he))
      exact ⟨o, by simp [findMatch, dictGetItem, hv, hm, Bind.bind, Except.bind, ho]⟩

theorem filterNotCode_ok (code : String) {l : List Course}
    (hkeys : ∀ c ∈ l, (c.lookup "code").isSome = true) :
    ∃ l2, filterNotCode code l = .ok l2 ∧
      ∀ c ∈ l2, c ∈ l ∧ ∃ v, c.lookup "code" = some v ∧ pyEqStr v code = false := by
  induction l with
  | nil => exact ⟨[], rfl, by simp⟩
  | cons c rest ih =>
    obtain ⟨v, hv⟩ := Option.isSome_iff_exists.mp (hkeys c (List.mem_cons_self c rest))
    obtain ⟨l2, hl2, hprop⟩ := ih (fun e he => hkeys e (List.mem_cons_of_mem c he))
    by_cases hm : pyEqStr v code = true
    · refine ⟨l2, by simp [filterNotCode, dictGetItem, hv, hm, Bind.bind, Except.bind, hl2], ?_⟩
      intro d hd
      exact ⟨List.mem_cons_of_mem c (hprop d hd).1, (hprop d hd).2⟩
    · refine ⟨c :: l2,
        by simp [filterNotCode, dictGetItem, hv, hm, Bind.bind, Except.bind, hl2], ?_⟩
      intro d hd
      rcases List.mem_cons.mp hd with rfl | hd2
      · exact ⟨List.mem_cons_self d rest, v, hv, by simpa using hm⟩
      · exact ⟨List.mem_cons_of_mem c (hprop d hd2).1, (hprop d hd2).2⟩

theorem filterNotCode_error (code : String) {l : List Course}
    (h : ∃ c ∈ l, c.lookup "code" = none) :
    filterNotCode code l = .error .keyError := by
  induction l with
  | nil => simp at h
  | cons c rest ih =>
    cases hv : c.lookup "code" with
    | none => simp [filterNotCode, dictGetItem, hv, Bind.bind, Except.bind]
    | some v =>
      have hrest : ∃ d ∈ rest, d.lookup "code" = none := by
        rcases h with ⟨d, hd, hdn⟩
        rcases List.mem_cons.mp hd with rfl | hd2
        · rw [hv] at hdn; cases hdn
        · exact ⟨d, hd2, hdn⟩
      simp [filterNotCode, dictGetItem, hv, Bind.bind, Except.bind, ih hrest]

/-! ### Additional dictionary lemmas -/

theorem lookup_mem {d : Dict} {k : String} {v : PyVal} (h : d.lookup k = some v) :
    (k, v) ∈ d := by
  induction d with
  | nil => cases h
  | cons p rest ih =>
    rw [List.lookup_cons] at h
    by_cases hk : (k == p.1) = true
    · rw [hk] at h
      cases h
      have : k = p.1 := by simpa using hk
      subst this
      exact List.mem_cons_self _ _
    · rw [Bool.eq_false_iff.mpr hk] at h
      exact List.mem_cons_of_mem p (ih h)

theorem all_str_dictGet_of_values {data : Dict}
    (h : ∀ p ∈ data, isStrVal p.2 = true) :
    ∀ k ∈ data.map Prod.fst, isStrVal (dictGet data k (.str "")) = true := by
  intro k hk
  obtain ⟨v, hv⟩ := Option.isSome_iff_exists.mp (lookup_isSome_of_mem_keys hk)
  rw [dictGet_of_lookup_eq_some hv]
  exact h (k, v) (lookup_mem hv)

/-! ### Claim theorems: validator -/

/-- C1: for every submitted record whose field values are all strings (as
form submissions are) and whose required fields code, name, instructor are
all non-empty after trimming, validate_course returns the Success outcome
if and only if no other field submitted in the record is empty or
whitespace-only after trimming. -/
theorem validate_success_iff_no_other_blank (data : Dict)
    (hstr : ∀ k ∈ data.map Prod.fst, isStrVal (dictGet data k (.str "")) = true)
    (hreq : ∀ f ∈ required_fields, isBlankVal (dictGet data f (.str "")) = false) :
    validate_course data = .ok (.success "Validation successful") ↔
      ∀ k ∈ data.map Prod.fst, k ∉ required_fields →
        isBlankVal (dictGet data k (.str "")) = false := by
  have hreqf : required_fields.filter (fun f => isBlankVal (dictGet data f (.str ""))) = [] := by
    rw [List.filter_eq_nil_iff]
    intro f hf
    simp [hreq f hf]
  constructor
  · intro hs k hk hknotreq
    by_contra hb
    have hb2 : isBlankVal (dictGet data k (.str "")) = true := by
      revert hb
      cases isBlankVal (dictGet data k (.str "")) <;> simp
    have hw : (data.map Prod.fst).filter (fun k => isBlankVal (dictGet data k (.str ""))) ≠ [] := by
      intro h0
      rw [List.filter_eq_nil_iff] at h0
      exact (h0 k hk) (by simp [hb2])
    rw [validate_course_warning_eq data hstr hreqf hw] at hs
    simp at hs
  · intro hnb
    have hw : (data.map Prod.fst).filter (fun k => isBlankVal (dictGet data k (.str ""))) = [] := by
      rw [List.filter_eq_nil_iff]
      intro k hk
      by_cases hkr : k ∈ required_fields
      · simp [hreq k hkr]
      · simp [hnb k hk hkr]
    exact validate_course_success_eq data hstr hreqf hw

/-- C2: for every submitted record in which every required-field value is a
string and at least one required field (code, name, instructor) is empty or
whitespace-only after trimming, validate_course returns the Error outcome,
whose message lists exactly the required fields that are missing, no more
and no fewer, in the canonical order and case of required_fields. -/
theorem validate_error_lists_missing_required (data : Dict)
    (hreqstr : ∀ f ∈ required_fields, isStrVal (dictGet data f (.str "")) = true)
    (hmiss : ∃ f ∈ required_fields, isBlankVal (dictGet data f (.str "")) = true) :
    validate_course data =
      .ok (.error ("Error: Missing required fields - " ++ String.intercalate ", "
        (required_fields.filter (fun f => isBlankVal (dictGet data f (.str "")))))) := by
  apply validate_course_error_eq data hreqstr
  intro h0
  rw [List.filter_eq_nil_iff] at h0
  rcases hmiss with ⟨f, hf, hbf⟩
  exact (h0 f hf) (by simp [hbf])

/-- C8: the warning check of validate_course iterates over exactly the
fields present in the submitted record, not over a fixed schema: for every
record (arbitrary string keys, string values) whose required fields are all
non-blank, when any supplied field is empty or whitespace-only the Warning
outcome lists exactly the fields the caller actually supplied with blank
values, in submission order. -/
theorem validate_warning_lists_submitted_blank_fields (data : Dict)
    (hstr : ∀ k ∈ data.map Prod.fst, isStrVal (dictGet data k (.str "")) = true)
    (hreq : ∀ f ∈ required_fields, isBlankVal (dictGet data f (.str "")) = false)
    (hw : (data.map Prod.fst).filter (fun k => isBlankVal (dictGet data k (.str ""))) ≠ []) :
    validate_course data =
      .ok (.warning ("Warning: Fields " ++ String.intercalate ", "
        ((data.map Prod.fst).filter (fun k => isBlankVal (dictGet data k (.str "")))) ++
        " are empty")) := by
  apply validate_course_warning_eq data hstr ?_ hw
  rw [List.filter_eq_nil_iff]
  intro f hf
  simp [hreq f hf]

/-! ### Claim theorems: record store -/

/-- C3 counterexample: when the backing catalog file exists but is empty,
load_courses does not return an empty sequence: json.load fails on the
zero-byte document, so the call raises instead. -/
theorem load_courses_empty_file_raises :
    load_courses (some JsonDoc.emptyDoc) = .error .jsonDecodeError := rfl

/-- C3 (amended): load_courses returns an empty sequence without error when
the backing catalog file is absent; when the file exists but is empty its
content is not well-formed JSON, so deserialization fails with
JSONDecodeError rather than returning an empty sequence. -/
theorem load_courses_absent_gives_empty :
    load_courses (none : FileState) = .ok [] ∧
      load_courses (some JsonDoc.emptyDoc) = .error .jsonDecodeError :=
  ⟨rfl, rfl⟩

/-- C4: for every record r and every catalog state on which save_courses
completes, loading afterwards returns the previously loaded catalog with r
appended: r is the last element and the length grew by exactly one. -/
theorem append_then_load_roundtrip (r : Course) (fs fs1 : FileState)
    (h : save_courses r fs = .ok fs1) :
    ∃ l, load_courses fs = .ok l ∧ load_courses fs1 = .ok (l ++ [r]) ∧
      (l ++ [r]).getLast? = some r ∧ (l ++ [r]).length = l.length + 1 := by
  cases hl : load_courses fs with
  | error e => simp [save_courses, hl, Bind.bind, Except.bind] at h
  | ok l =>
    have hfs1 : fs1 = some (.arrayDoc (l ++ [r])) := by
      simp only [save_courses, hl, Bind.bind, Except.bind] at h
      cases h
      rfl
    subst hfs1
    exact ⟨l, rfl, rfl, List.getLast?_concat l, by simp⟩

/-- C5: appending a record r carrying a string code and then deleting by
that code succeeds (the delete returns True) and the rewritten catalog
contains no record whose code field equals that code, pre-existing
duplicates included; records are assumed to carry a code key, as every
record the application writes does. -/
theorem append_then_delete_removes_code (r : Course) (code : String) (fs : FileState)
    (l : List Course)
    (hload : load_courses fs = .ok l)
    (hr : r.lookup "code" = some (.str code))
    (hkeys : ∀ c ∈ l, (c.lookup "code").isSome = true) :
    ∃ l2, save_courses r fs = .ok (some (.arrayDoc (l ++ [r]))) ∧
      delete_course_by_code code (some (.arrayDoc (l ++ [r]))) =
        .ok (true, some (.arrayDoc l2)) ∧
      ∀ c ∈ l2, c.lookup "code" ≠ some (.str code) := by
  have hkeys2 : ∀ c ∈ l ++ [r], (c.lookup "code").isSome = true := by
    intro c hc
    rcases List.mem_append.mp hc with hc | hc
    · exact hkeys c hc
    · simp only [List.mem_singleton] at hc
      subst hc
      simp [hr]
  have hmatch : ∃ c ∈ l ++ [r], ∃ v, c.lookup "code" = some v ∧ pyEqStr v code = true :=
    ⟨r, by simp, .str code, hr, by simp [pyEqStr]⟩
  obtain ⟨c0, hc0⟩ := findMatch_ok_some hkeys2 hmatch
  obtain ⟨l2, hl2, hprop⟩ := filterNotCode_ok code hkeys2
  refine ⟨l2, ?_, ?_, ?_⟩
  · simp [save_courses, hload, Bind.bind, Except.bind]
  · simp [delete_course_by_code, load_courses, jsonLoadDoc, Bind.bind, Except.bind, hc0, hl2]
  · intro c hc hlc
    obtain ⟨-, v, hv, hpv⟩ := hprop c hc
    rw [hlc] at hv
    cases hv
    simp [pyEqStr] at hpv

/-- C6: deleting a code that no loaded record carries returns False and
leaves the catalog file untouched; and when some record does carry the
code, two sequential deletes of it return True then False, the second
leaving the once-rewritten file untouched.  Records are assumed to carry a
code key, as every record the application writes does. -/
theorem delete_absent_code_noop (code : String) (fs : FileState) (l : List Course)
    (hload : load_courses fs = .ok l)
    (hkeys : ∀ c ∈ l, (c.lookup "code").isSome = true) :
    ((∀ c ∈ l, c.lookup "code" ≠ some (.str code)) →
        delete_course_by_code code fs = .ok (false, fs)) ∧
    ((∃ c ∈ l, c.lookup "code" = some (.str code)) →
        ∃ fs1, delete_course_by_code code fs = .ok (true, fs1) ∧
          delete_course_by_code code fs1 = .ok (false, fs1)) := by
  constructor
  · intro habs
    have hnone : findMatch code l = .ok none := by
      apply findMatch_ok_none
      intro c hc
      obtain ⟨v, hv⟩ := Option.isSome_iff_exists.mp (hkeys c hc)
      refine ⟨v, hv, pyEqStr_false_of_ne ?_⟩
      intro hveq
      subst hveq
      exact habs c hc hv
    simp [delete_course_by_code, hload, Bind.bind, Except.bind, hnone]
  · intro hpres
    have hmatch : ∃ c ∈ l, ∃ v, c.lookup "code" = some v ∧ pyEqStr v code = true := by
      rcases hpres with ⟨c, hc, hv⟩
      exact ⟨c, hc, .str code, hv, by simp [pyEqStr]⟩
    obtain ⟨c0, hc0⟩ := findMatch_ok_some hkeys hmatch
    obtain ⟨l2, hl2, hprop⟩ := filterNotCode_ok code hkeys
    refine ⟨some (.arrayDoc l2), ?_, ?_⟩
    · simp [delete_course_by_code, hload, Bind.bind, Except.bind, hc0, hl2]
    · have hnone2 : findMatch code l2 = .ok none := by
        apply findMatch_ok_none
        intro c hc
        obtain ⟨-, v, hv, hpv⟩ := hprop c hc
        exact ⟨v, hv, hpv⟩
      simp [delete_course_by_code, load_courses, jsonLoadDoc, Bind.bind, Except.bind, hnone2]

/-- C10: delete_course_by_code requires every loaded record to carry a
code key: when some stored record lacks it the operation raises KeyError
instead of returning a boolean, and when every stored record carries it
the operation returns a boolean and a file state without raising. -/
theorem delete_requires_code_key :
    (∀ (code : String) (fs : FileState) (l : List Course),
        load_courses fs = .ok l → (∃ c ∈ l, c.lookup "code" = none) →
        delete_course_by_code code fs = .error .keyError) ∧
    (∀ (code : String) (fs : FileState) (l : List Course),
        load_courses fs = .ok l → (∀ c ∈ l, (c.lookup "code").isSome = true) →
        ∃ b fs1, delete_course_by_code code fs = .ok (b, fs1)) := by
  constructor
  · intro code fs l hload hmissing
    rcases findMatch_error_or_some code hmissing with he | ⟨c, hc⟩
    · simp [delete_course_by_code, hload, Bind.bind, Except.bind, he]
    · have hferr := filterNotCode_error code hmissing
      simp [delete_course_by_code, hload, Bind.bind, Except.bind, hc, hferr]
  · intro code fs l hload hkeys
    obtain ⟨o, ho⟩ := findMatch_exists_ok code hkeys
    cases o with
    | none =>
      exact ⟨false, fs, by simp [delete_course_by_code, hload, Bind.bind, Except.bind, ho]⟩
    | some c =>
      obtain ⟨l2, hl2, -⟩ := filterNotCode_ok code hkeys
      exact ⟨true, some (.arrayDoc l2),
        by simp [delete_course_by_code, hload, Bind.bind, Except.bind, ho, hl2]⟩

/-! ### Lemmas about the course built from the add_course form -/

theorem buildCourse_values_str (f : Form) : ∀ p ∈ buildCourse f, isStrVal p.2 = true := by
  intro p hp
  simp only [buildCourse, List.mem_cons, List.not_mem_nil, or_false] at hp
  rcases hp with rfl | rfl | rfl | rfl | rfl | rfl | rfl | rfl | rfl <;> rfl

theorem buildCourse_req_str (f : Form) (d : PyVal) :
    ∀ fld ∈ required_fields, isStrVal (dictGet (buildCourse f) fld d) = true := by
  intro fld hfld
  simp only [required_fields, List.mem_cons, List.not_mem_nil, or_false] at hfld
  rcases hfld with rfl | rfl | rfl <;> rfl

theorem buildCourse_reqfilter_indep (f : Form) (d : PyVal) :
    required_fields.filter (fun fld => isBlankVal (dictGet (buildCourse f) fld d)) =
      required_fields.filter (fun fld => isBlankVal (dictGet (buildCourse f) fld (.str ""))) := by
  have hc : ∀ e : PyVal, dictGet (buildCourse f) "code" e = .str f.code := fun _ => rfl
  have hn : ∀ e : PyVal, dictGet (buildCourse f) "name" e = .str f.name := fun _ => rfl
  have hi : ∀ e : PyVal, dictGet (buildCourse f) "instructor" e = .str f.instructor :=
    fun _ => rfl
  simp [required_fields, List.filter, hc, hn, hi]

/-! ### Claim theorems: add_course handler -/

/-- C7: in the POST branch of add_course, a submitted record whose
validation outcome is Error is never persisted (the handler re-renders the
form and leaves the catalog file unchanged), while a record whose
validation outcome is Warning is still persisted (appended to the loaded
catalog and the file rewritten, then the handler redirects). -/
theorem add_course_gate :
    (∀ (f : Form) (fs : FileState) (m : String),
        validate_course (buildCourse f) = .ok (.error m) →
        add_course f fs = .ok (.missingFieldsError, fs)) ∧
    (∀ (f : Form) (fs : FileState) (m : String) (l : List Course),
        validate_course (buildCourse f) = .ok (.warning m) →
        load_courses fs = .ok l →
        add_course f fs = .ok (.redirectSuccess, some (.arrayDoc (l ++ [buildCourse f])))) := by
  constructor
  · intro f fs m hverr
    have hstrall : ∀ k ∈ (buildCourse f).map Prod.fst,
        isStrVal (dictGet (buildCourse f) k (.str "")) = true :=
      all_str_dictGet_of_values (buildCourse_values_str f)
    have hne : required_fields.filter
        (fun fld => isBlankVal (dictGet (buildCourse f) fld (.str ""))) ≠ [] := by
      intro h0
      by_cases hw : ((buildCourse f).map Prod.fst).filter
          (fun k => isBlankVal (dictGet (buildCourse f) k (.str ""))) = []
      · rw [validate_course_success_eq (buildCourse f) hstrall h0 hw] at hverr
        simp at hverr
      · rw [validate_course_warning_eq (buildCourse f) hstrall h0 hw] at hverr
        simp at hverr
    have hpre : blankFields (buildCourse f) .nonStr required_fields =
        .ok (required_fields.filter
          (fun fld => isBlankVal (dictGet (buildCourse f) fld (.str "")))) := by
      rw [blankFields_eq_filter (buildCourse f) .nonStr required_fields
        (buildCourse_req_str f .nonStr)]
      rw [buildCourse_reqfilter_indep f .nonStr]
    simp [add_course, hpre, Bind.bind, Except.bind, List.isEmpty_iff, hne]
  · intro f fs m l hvw hload
    have hreqf : required_fields.filter
        (fun fld => isBlankVal (dictGet (buildCourse f) fld (.str ""))) = [] := by
      by_contra hne
      rw [validate_course_error_eq (buildCourse f) (buildCourse_req_str f (.str "")) hne]
        at hvw
      simp at hvw
    have hpre : blankFields (buildCourse f) .nonStr required_fields = .ok [] := by
      rw [blankFields_eq_filter (buildCourse f) .nonStr required_fields
        (buildCourse_req_str f .nonStr)]
      rw [buildCourse_reqfilter_indep f .nonStr, hreqf]
    simp [add_course, hpre, Bind.bind, Except.bind, hvw, Outcome.truthy,
      save_courses, hload]

/-! ### Claim theorems: validator totality -/

/-- C9 counterexample: a submitted record can map a field to a non-string
value and yet validate_course returns an outcome rather than raising: with
a blank required field, the error path returns before the warning scan ever
touches the non-string value. -/
theorem validate_nonstring_field_returns_outcome :
    validate_course [("code", .str ""), ("extra", .nonStr)] =
      .ok (.error "Error: Missing required fields - code, name, instructor") := rfl

/-- C9 (amended): validate_course raises exactly when a scan reaches a
non-string value.  Under the all-values-are-strings precondition no call
raises; when a required field maps to a non-string the required scan raises
AttributeError; when every required-field value is a string and one of them
is blank, the call returns the Error outcome without touching the remaining
fields, even if some other field maps to a non-string; and when the
required fields are all non-blank strings, a non-string anywhere in the
record makes the warning scan raise AttributeError. -/
theorem validate_strip_totality :
    (∀ data : Dict, (∀ p ∈ data, isStrVal p.2 = true) →
        ∃ o, validate_course data = .ok o) ∧
    (∀ data : Dict, (∃ f ∈ required_fields, dictGet data f (.str "") = .nonStr) →
        validate_course data = .error .attributeError) ∧
    (∀ data : Dict,
        (∀ f ∈ required_fields, isStrVal (dictGet data f (.str "")) = true) →
        (∃ f ∈ required_fields, isBlankVal (dictGet data f (.str "")) = true) →
        ∃ m, validate_course data = .ok (.error m)) ∧
    (∀ data : Dict,
        (∀ f ∈ required_fields, isStrVal (dictGet data f (.str "")) = true ∧
            isBlankVal (dictGet data f (.str "")) = false) →
        (∃ k v, data.lookup k = some v ∧ isStrVal v = false) →
        validate_course data = .error .attributeError) := by
  refine ⟨?_, ?_, ?_, ?_⟩
  · intro data hlk
    have hstrall : ∀ k ∈ data.map Prod.fst, isStrVal (dictGet data k (.str "")) = true :=
      all_str_dictGet_of_values hlk
    by_cases hreqf : required_fields.filter
        (fun fld => isBlankVal (dictGet data fld (.str ""))) = []
    · by_cases hw : (data.map Prod.fst).filter
          (fun k => isBlankVal (dictGet data k (.str ""))) = []
      · exact ⟨_, validate_course_success_eq data hstrall hreqf hw⟩
      · exact ⟨_, validate_course_warning_eq data hstrall hreqf hw⟩
    · exact ⟨_, validate_course_error_eq data
        (fun fld _ => str_dictGet_of_all_str hstrall fld) hreqf⟩
  · intro data hnon
    have herr := blankFields_error data (.str "") required_fields hnon
    simp [validate_course, herr, Bind.bind, Except.bind]
  · intro data hstr hone
    refine ⟨_, validate_course_error_eq data hstr ?_⟩
    intro h0
    rw [List.filter_eq_nil_iff] at h0
    rcases hone with ⟨fld, hf, hb⟩
    exact (h0 fld hf) (by simp [hb])
  · intro data hreq hex
    obtain ⟨k, v, hkv, hvns⟩ := hex
    have hvn : v = PyVal.nonStr := by
      cases v with
      | str s => simp [isStrVal] at hvns
      | nonStr => rfl
    subst hvn
    have hk : k ∈ data.map Prod.fst := mem_keys_of_lookup_eq_some hkv
    have hreqf : required_fields.filter
        (fun fld => isBlankVal (dictGet data fld (.str ""))) = [] := by
      rw [List.filter_eq_nil_iff]
      intro fld hf
      simp [(hreq fld hf).2]
    have hreqok := blankFields_eq_filter data (.str "") required_fields
      (fun fld hf => (hreq fld hf).1)
    have hwerr := blankFields_error data (.str "") (data.map Prod.fst)
      ⟨k, hk, dictGet_of_lookup_eq_some hkv⟩
    simp [validate_course, hreqok, hreqf, hwerr, Bind.bind, Except.bind]

/-! ### Concrete witness inputs -/

def c1data : Dict :=
  [("code", .str "CS101"), ("name", .str "Algo"), ("instructor", .str "Dr. X"),
   ("semester", .str "Fall")]

def c2data : Dict :=
  [("code", .str " "), ("name", .str "Algo"), ("instructor", .str "Dr. X")]

def c4rec : Course := [("code", .str "CS101"), ("name", .str "Algo")]

def c5old : Course := [("code", .str "CS101"), ("name", .str "Old")]

def c5new : Course := [("code", .str "CS101"), ("name", .str "New")]

def c6l : List Course := [[("code", .str "CS101"), ("name", .str "Algo")]]

def c7f1 : Form := ⟨"", "Algo", "Dr. X", "Fall", "MWF", "R101", "None", "Relative", "Desc"⟩

def c7f2 : Form := ⟨"CS101", "Algo", "Dr. X", "", "MWF", "R101", "None", "Relative", "Desc"⟩

def c8data : Dict :=
  [("code", .str "CS101"), ("name", .str "Algo"), ("instructor", .str "Dr. X"),
   ("semester", .str ""), ("zzz_custom", .str "  ")]

def c9d1 : Dict :=
  [("code", .str "CS101"), ("name", .str "Algo"), ("instructor", .str "Dr. X")]

def c9d2 : Dict := [("code", .nonStr), ("name", .str "Algo"), ("instructor", .str "Dr. X")]

def c9d3 : Dict := [("code", .str ""), ("extra2", .nonStr)]

def c9d4 : Dict :=
  [("code", .str "CS101"), ("name", .str "Algo"), ("instructor", .str "Dr. X"),
   ("extra3", .nonStr)]

def c10l : List Course := [[("code", .str "A")], [("name", .str "x")]]

def c10l2 : List Course := [[("code", .str "A")], [("code", .str "B")]]

/-! ### Witnesses -/

/-- C1 witness: the claim theorem applied to a concrete all-string record
with non-blank required fields and one non-blank optional field. -/
theorem validate_success_iff_no_other_blank_witness :
    (∀ k ∈ c1data.map Prod.fst, isStrVal (dictGet c1data k (.str "")) = true) ∧
    (∀ f ∈ required_fields, isBlankVal (dictGet c1data f (.str "")) = false) ∧
    (validate_course c1data = .ok (.success "Validation successful") ↔
      ∀ k ∈ c1data.map Prod.fst, k ∉ required_fields →
        isBlankVal (dictGet c1data k (.str "")) = false) :=
  ⟨by decide, by decide,
    validate_success_iff_no_other_blank c1data (by decide) (by decide)⟩

/-- C2 witness: the claim theorem applied to a concrete record whose code
is whitespace-only; the message lists exactly the one missing field. -/
theorem validate_error_lists_missing_required_witness :
    (∀ f ∈ required_fields, isStrVal (dictGet c2data f (.str "")) = true) ∧
    (∃ f ∈ required_fields, isBlankVal (dictGet c2data f (.str "")) = true) ∧
    validate_course c2data = .ok (.error "Error: Missing required fields - code") :=
  ⟨by decide, by decide,
    validate_error_lists_missing_required c2data (by decide) (by decide)⟩

/-- C4 witness: the claim theorem applied to a concrete record appended to
an absent catalog file. -/
theorem append_then_load_roundtrip_witness :
    save_courses c4rec none = .ok (some (.arrayDoc [c4rec])) ∧
    (∃ l, load_courses none = .ok l ∧
      load_courses (some (.arrayDoc [c4rec])) = .ok (l ++ [c4rec]) ∧
      (l ++ [c4rec]).getLast? = some c4rec ∧ (l ++ [c4rec]).length = l.length + 1) :=
  ⟨rfl, append_then_load_roundtrip c4rec none (some (.arrayDoc [c4rec])) rfl⟩

/-- C5 witness: the claim theorem applied to a catalog already containing a
record with the same code, so the delete removes the duplicate as well. -/
theorem append_then_delete_removes_code_witness :
    load_courses (some (.arrayDoc [c5old])) = .ok [c5old] ∧
    c5new.lookup "code" = some (.str "CS101") ∧
    (∀ c ∈ [c5old], (c.lookup "code").isSome = true) ∧
    (∃ l2, save_courses c5new (some (.arrayDoc [c5old])) =
        .ok (some (.arrayDoc ([c5old] ++ [c5new]))) ∧
      delete_course_by_code "CS101" (some (.arrayDoc ([c5old] ++ [c5new]))) =
        .ok (true, some (.arrayDoc l2)) ∧
      ∀ c ∈ l2, c.lookup "code" ≠ some (.str "CS101")) :=
  ⟨rfl, rfl, by decide,
    append_then_delete_removes_code c5new "CS101" (some (.arrayDoc [c5old])) [c5old]
      rfl rfl (by decide)⟩

/-- C6 witness: the claim theorem applied to a one-record catalog whose
code is present, giving the True-then-False pair of sequential deletes. -/
theorem delete_absent_code_noop_witness :
    load_courses (some (.arrayDoc c6l)) = .ok c6l ∧
    (∀ c ∈ c6l, (c.lookup "code").isSome = true) ∧
    (∃ c ∈ c6l, c.lookup "code" = some (.str "CS101")) ∧
    (∃ fs1, delete_course_by_code "CS101" (some (.arrayDoc c6l)) = .ok (true, fs1) ∧
      delete_course_by_code "CS101" fs1 = .ok (false, fs1)) :=
  ⟨rfl, by decide, by decide,
    (delete_absent_code_noop "CS101" (some (.arrayDoc c6l)) c6l rfl (by decide)).2
      (by decide)⟩

/-- C7 witness: the claim theorem applied to one form with a blank required
field (outcome Error, nothing persisted) and one form with only a blank
semester (outcome Warning, record persisted). -/
theorem add_course_gate_witness :
    validate_course (buildCourse c7f1) =
      .ok (.error "Error: Missing required fields - code") ∧
    add_course c7f1 none = .ok (.missingFieldsError, none) ∧
    validate_course (buildCourse c7f2) =
      .ok (.warning "Warning: Fields semester are empty") ∧
    load_courses none = .ok [] ∧
    add_course c7f2 none = .ok (.redirectSuccess, some (.arrayDoc [buildCourse c7f2])) :=
  ⟨rfl, add_course_gate.1 c7f1 none "Error: Missing required fields - code" rfl,
    rfl, rfl, add_course_gate.2 c7f2 none "Warning: Fields semester are empty" [] rfl rfl⟩

/-- C8 witness: the claim theorem applied to a record that supplies a blank
field outside the fixed schema; the warning lists it alongside the blank
optional field, in submission order. -/
theorem validate_warning_lists_submitted_blank_fields_witness :
    (∀ k ∈ c8data.map Prod.fst, isStrVal (dictGet c8data k (.str "")) = true) ∧
    (∀ f ∈ required_fields, isBlankVal (dictGet c8data f (.str "")) = false) ∧
    ((c8data.map Prod.fst).filter (fun k => isBlankVal (dictGet c8data k (.str ""))) ≠ []) ∧
    validate_course c8data =
      .ok (.warning "Warning: Fields semester, zzz_custom are empty") :=
  ⟨by decide, by decide, by decide,
    validate_warning_lists_submitted_blank_fields c8data (by decide) (by decide) (by decide)⟩

/-- C9 witness: the four parts of the amended claim theorem applied to
concrete records: all-string, non-string required field, blank required
field next to a non-string, and non-string optional field with non-blank
required fields. -/
theorem validate_strip_totality_witness :
    (∃ o, validate_course c9d1 = .ok o) ∧
    validate_course c9d2 = .error .attributeError ∧
    (∃ m, validate_course c9d3 = .ok (.error m)) ∧
    validate_course c9d4 = .error .attributeError :=
  ⟨validate_strip_totality.1 c9d1 (by decide),
    validate_strip_totality.2.1 c9d2 (by decide),
    validate_strip_totality.2.2.1 c9d3 (by decide) (by decide),
    validate_strip_totality.2.2.2 c9d4 (by decide) ⟨"extra3", .nonStr, by decide, rfl⟩⟩

/-- C10 witness: the claim theorem applied to a catalog with a record
lacking a code key (KeyError) and to a catalog whose records all carry one
(boolean result, no exception). -/
theorem delete_requires_code_key_witness :
    load_courses (some (.arrayDoc c10l)) = .ok c10l ∧
    (∃ c ∈ c10l, c.lookup "code" = none) ∧
    delete_course_by_code "A" (some (.arrayDoc c10l)) = .error .keyError ∧
    load_courses (some (.arrayDoc c10l2)) = .ok c10l2 ∧
    (∀ c ∈ c10l2, (c.lookup "code").isSome = true) ∧
    (∃ b fs1, delete_course_by_code "A" (some (.arrayDoc c10l2)) = .ok (b, fs1)) :=
  ⟨rfl, by decide,
    delete_requires_code_key.1 "A" (some (.arrayDoc c10l)) c10l rfl (by decide),
    rfl, by decide,
    delete_requires_code_key.2 "A" (some (.arrayDoc c10l2)) c10l2 rfl (by decide)⟩

end CourseApp
